import Mathlib

/-!
Verification model of the mail-render-template-engine core.

Shallow embedding of the directory-to-specification compiler
(src/src/spec/from_dir.rs, src/src/spec/mod.rs), the CID resolution layer
(src/src/traits.rs), the specification registry (src/src/rte.rs) and the
backend adapters (src/src/tera/mod.rs, src/src/handlebars/mod.rs).

Modelling conventions:
- Rust HashMap values are modelled as association lists with unique keys;
  the iteration order of a HashMap is arbitrary, so list order stands in for
  one arbitrary iteration order.
- The backend registries (tera.templates, the Handlebars template registry)
  are modelled by their key sets, kept as duplicate-free lists of ids.
- External fallible operations (template parsing by tera/handlebars, media
  type derivation by the absent settings module) are oracles passed in as
  functions; `none` means success is impossible to observe externally, see
  each definition's comment.
- Paths are strings; OsString-to-String conversions therefore always succeed
  in the model (their failure arms are noted where dropped).
-/

namespace MailRte

/-- Model of a content id (headers::components::ContentId): an opaque token. -/
abbrev ContentId := Nat

/-- Model of template::EmbeddedWithCId. Only the content_id projection used by
AdditionalCIds is kept; the byte payload is irrelevant to the claims. -/
structure EmbeddedWithCId where
  content_id : ContentId
deriving DecidableEq

/-- One name-to-embedding layer handed to AdditionalCIds (a HashMap in one
arbitrary but fixed iteration order). -/
abbrev CidMap := List (String × EmbeddedWithCId)

/-- Embedding of AdditionalCIds::get (src/src/traits.rs lines 118 to 125):
walk the layers in order and return the content id from the first map that
contains the name. -/
def acidsGet (layers : List CidMap) (name : String) : Option ContentId :=
  match layers with
  | [] => none
  | m :: rest =>
    match List.lookup name m with
    | some res => some res.content_id
    | none => acidsGet rest name

/-- Embedding of the filter inside the Serialize impl for AdditionalCIds
(src/src/traits.rs lines 128 to 140). existing_keys is a HashSet whose element
type is inferred from what is inserted, and the closure inserts the full
(name, content-id) pair produced by the flat_map, so a later entry is dropped
only when BOTH its name and its content id were seen before. -/
def serFilter (seen : List (String × ContentId)) :
    List (String × ContentId) → List (String × ContentId)
  | [] => []
  | kv :: rest =>
    if kv ∈ seen then serFilter seen rest
    else kv :: serFilter (kv :: seen) rest

/-- Embedding of the Serialize impl for AdditionalCIds: the sequence of
(name, content-id) entries handed to serializer.collect_map. -/
def serializedPairs (layers : List CidMap) : List (String × ContentId) :=
  serFilter [] (layers.flatMap (fun m => m.map (fun kv => (kv.1, kv.2.content_id))))

/-- Embedding of spec::TemplateSource (src/src/spec/mod.rs lines 273 to 293). -/
inductive TemplateSource where
  | Path (path : String)
  | Source (id : String) (content : String)
deriving DecidableEq

/-- Embedding of TemplateSource::id (lines 304 to 310): for Path the path is
the id, otherwise the id of the Source variant. -/
def TemplateSource.id : TemplateSource → String
  | .Path path_is_id => path_is_id
  | .Source i _ => i

/-- Model of a mail::Resource as built by embedding_from_path: the IRI and the
media type determined for the file. -/
structure Resource where
  iri : String
  media_type : String
deriving DecidableEq

/-- Embedding of spec::SubTemplateSpec (src/src/spec/mod.rs lines 205 to 213). -/
structure SubTemplateSpec where
  media_type : String
  source : TemplateSource
  embeddings : List (String × Resource)
deriving DecidableEq

/-- Embedding of spec::TemplateSpec (src/src/spec/mod.rs lines 32 to 43); the
Vec1 of sub templates is a list that is provably nonempty. -/
structure TemplateSpec where
  base_path : Option String
  templates : { l : List SubTemplateSpec // l ≠ [] }
  embeddings : List (String × Resource)
  attachments : List Resource
deriving DecidableEq

/-- The backend-facing ids of a spec's sub templates, in spec order. -/
def TemplateSpec.subIds (spec : TemplateSpec) : List String :=
  spec.templates.val.map (fun sub => sub.source.id)

/-- Embedding of error::CreatingSpecErrorVariant, reconstructed from its uses
in src/src/spec/from_dir.rs (the error module is not part of the excerpt). -/
inductive CreatingSpecError where
  | NonStringPath (path : String)
  | MissingTypeInfo (type_name : String)
  | NoSubTemplatesFound (dir : String)
  | TemplateFileMissing (dir : String)
  | MultipleTemplateFiles (dir : String)
  | DuplicateEmbeddingName (name : String)
  | NotAFile (path : String)
  | IRIConstructionFailed (tail : String)
  | MediaTypeDeterminationFailed (path : String)
deriving DecidableEq

/-- Modelled from the spec: the settings module (LoadSpecSettings, Type) is not
in the excerpted source. Spec section 4.1 describes a type descriptor as
recognized source-file suffixes in preference order, a base file name, and a
media-type derivation rule; the derivation rule is an abstract function. -/
structure TypeDescr where
  suffixes : List String
  base_name : String
  to_media_type_for : String → Option String

/-- Modelled from the spec: the configuration table mapping a directory-name
token to (priority, type descriptor), plus the media type sniffing used for
embeddings (settings.determine_media_type), both abstract. -/
structure LoadSpecSettings where
  get_type_with_priority : String → Option (Nat × TypeDescr)
  determine_media_type : String → Option String

/-- A directory entry as far as the compiler inspects it: its file name and
whether it is a regular file. -/
structure FileEntry where
  fileName : String
  isFile : Bool
deriving DecidableEq

/-- An entry directly under the base directory: a subdirectory with its own
entries, or a non-directory entry. -/
inductive FsEntry where
  | dir (name : String) (contents : List FileEntry)
  | nondir (entry : FileEntry)
deriving DecidableEq

/-- Embedding of the name derivation in embedding_from_path
(src/src/spec/from_dir.rs lines 137 to 141): file_name.split(".").next(),
everything before the first dot. -/
def leadingName (s : String) : String :=
  ⟨s.data.takeWhile (fun c => c != '.')⟩

/-- Embedding of iri_from_path (lines 157 to 170): IRI::from_parts("path", p).
For string paths the construction is modelled as always succeeding, matching
the fixture iris of tests/rte/main.rs such as "path:./test_resources/...". -/
def iri_from_path (path : String) : String := "path:" ++ path

/-- Embedding of embedding_from_path (src/src/spec/from_dir.rs lines 124 to
155): reject non-files, derive the embedding name as the leading dot-segment
(with no validation of the derived name), determine the media type, build the
resource. -/
def embedding_from_path (settings : LoadSpecSettings) (parent : String)
    (f : FileEntry) : Except CreatingSpecError (String × Resource) :=
  if f.isFile = false then .error (.NotAFile (parent ++ "/" ++ f.fileName))
  else
    let name := leadingName f.fileName
    match settings.determine_media_type (parent ++ "/" ++ f.fileName) with
    | none => .error (.MediaTypeDeterminationFailed (parent ++ "/" ++ f.fileName))
    | some mt => .ok (name, ⟨iri_from_path (parent ++ "/" ++ f.fileName), mt⟩)

/-- Embedding of is_template_file (src/src/spec/from_dir.rs lines 77 to 82):
the entry's name starts with "mail."; file names are modelled as valid UTF-8
strings so the to_str failure arm (which yields false) is dropped. -/
def is_template_file (f : FileEntry) : Bool :=
  "mail.".data.isPrefixOf f.fileName.data

/-- Embedding of the loop of find_files (src/src/spec/from_dir.rs lines 95 to
112), threading the optional template file found so far and the embedding
map (an association list in insertion order). -/
def findFilesLoop (settings : LoadSpecSettings) (in_dir : String) :
    List FileEntry → Option String → List (String × Resource) →
    Except CreatingSpecError (Option String × List (String × Resource))
  | [], tf, others => .ok (tf, others)
  | f :: rest, tf, others =>
    if is_template_file f then
      match tf with
      | none => findFilesLoop settings in_dir rest
          (some (in_dir ++ "/" ++ f.fileName)) others
      | some _ => .error (.MultipleTemplateFiles in_dir)
    else
      match embedding_from_path settings in_dir f with
      | .error e => .error e
      | .ok (key, value) =>
        if (List.lookup key others).isSome then
          .error (.DuplicateEmbeddingName key)
        else findFilesLoop settings in_dir rest tf (others ++ [(key, value)])

/-- Embedding of find_files (src/src/spec/from_dir.rs lines 90 to 122). -/
def find_files (settings : LoadSpecSettings) (in_dir : String)
    (contents : List FileEntry) :
    Except CreatingSpecError (String × List (String × Resource)) :=
  match findFilesLoop settings in_dir contents none [] with
  | .error e => .error e
  | .ok (some template_file, others) => .ok (template_file, others)
  | .ok (none, _) => .error (.TemplateFileMissing in_dir)

/-- Embedding of sub_template_from_dir (src/src/spec/from_dir.rs lines 67 to
74). -/
def sub_template_from_dir (settings : LoadSpecSettings) (dir : String)
    (type_ : TypeDescr) (contents : List FileEntry) :
    Except CreatingSpecError SubTemplateSpec :=
  match find_files settings dir contents with
  | .error e => .error e
  | .ok (template_file, embeddings) =>
    match type_.to_media_type_for template_file with
    | none => .error (.MediaTypeDeterminationFailed template_file)
    | some media_type => .ok ⟨media_type, .Path template_file, embeddings⟩

/-- A candidate alternate-body directory recorded by from_dir's first loop:
(priority, (path, type descriptor, directory entries)). -/
abbrev Candidate := Nat × (String × TypeDescr × List FileEntry)

/-- Stable insertion of one keyed element into an already sorted list: the new
element goes before the first strictly larger key and after equal keys. -/
def insertByKey (x : Nat × α) : List (Nat × α) → List (Nat × α)
  | [] => [x]
  | y :: ys => if x.1 ≤ y.1 then x :: y :: ys else y :: insertByKey x ys

/-- Embedding of sub_template_dirs.sort_by_key(|data| data.0)
(src/src/spec/from_dir.rs line 53). Rust's sort_by_key is a stable ascending
sort; the output of a stable sort is unique, so the concrete stable algorithm
(here insertion sort) is immaterial. -/
def sortByKey : List (Nat × α) → List (Nat × α)
  | [] => []
  | x :: l => insertByKey x (sortByKey l)

/-- HashMap::insert on an association list with unique keys: replace the bound
value if the key is present, else append the new binding. -/
def mapInsert (l : List (String × Resource)) (k : String) (v : Resource) :
    List (String × Resource) :=
  match l with
  | [] => [(k, v)]
  | kv :: rest => if kv.1 == k then (kv.1, v) :: rest else kv :: mapInsert rest k v

/-- Embedding of the first loop of from_dir (src/src/spec/from_dir.rs lines 39
to 51): collect the candidate sub-template directories in directory order and
the shared embeddings. The shared-embedding arm is a plain HashMap::insert
with no duplicate check, unlike the per-directory loop in find_files. -/
def scanEntries (settings : LoadSpecSettings) (base_path : String) :
    List FsEntry → List Candidate × List (String × Resource) →
    Except CreatingSpecError (List Candidate × List (String × Resource))
  | [], acc => .ok acc
  | .dir name contents :: rest, (dirs, globs) =>
    match settings.get_type_with_priority name with
    | none => .error (.MissingTypeInfo name)
    | some (prio, type_) =>
      scanEntries settings base_path rest
        (dirs ++ [(prio, (base_path ++ "/" ++ name, type_, contents))], globs)
  | .nondir f :: rest, (dirs, globs) =>
    match embedding_from_path settings base_path f with
    | .error e => .error e
    | .ok (name, resource_spec) =>
      scanEntries settings base_path rest (dirs, mapInsert globs name resource_spec)

/-- Error-short-circuiting map in input order: the for loop pushing
sub_template_from_dir results in from_dir, and Vec1::try_mapped_ref in
use_template. -/
def tryMap (f : α → Except ε β) : List α → Except ε (List β)
  | [] => .ok []
  | a :: l =>
    match f a with
    | .error e => .error e
    | .ok b =>
      match tryMap f l with
      | .error e => .error e
      | .ok bs => .ok (b :: bs)

/-- Embedding of from_dir (src/src/spec/from_dir.rs lines 36 to 64): scan the
base directory, sort candidates by priority, build each sub spec in sorted
order, fail with NoSubTemplatesFound on an empty result, and assemble the
TemplateSpec (check_string_path always succeeds on string paths). -/
def from_dir (settings : LoadSpecSettings) (base_path : String)
    (entries : List FsEntry) : Except CreatingSpecError TemplateSpec :=
  match scanEntries settings base_path entries ([], []) with
  | .error e => .error e
  | .ok (sub_template_dirs, glob_embeddings) =>
    match tryMap (fun c => sub_template_from_dir settings c.2.1 c.2.2.1 c.2.2.2)
        (sortByKey sub_template_dirs) with
    | .error e => .error e
    | .ok [] => .error (.NoSubTemplatesFound base_path)
    | .ok (s :: ss) =>
      .ok ⟨some base_path, ⟨s :: ss, List.cons_ne_nil s ss⟩, glob_embeddings, []⟩

/-- Embedding of tera::error::TeraError plus the TemplateIdCollision variant
used by src/src/tera/mod.rs; external tera failures are collapsed to a kind
code. -/
inductive TeraError where
  | UnknowTemplateId (id : String)
  | TemplateIdCollision (id : String)
  | RenderFailure (kind : Nat)
deriving DecidableEq

/-- Embedding of error_cleanup (src/src/tera/mod.rs lines 147 to 151, and the
copy generated by implement_load_helper in src/src/traits.rs lines 212 to
216): unregister every id this call registered, in registration order. -/
def errorCleanup (templates : List String) (added_names : List String) :
    List String :=
  added_names.foldl (fun ts name => ts.erase name) templates

/-- Embedding of the load_templates loop shared by the Tera engine
(src/src/tera/mod.rs lines 87 to 145) and, via implement_load_helper
(src/src/traits.rs lines 154 to 218), the Handlebars engine. For each sub
template in spec order: fail on an id collision with ANY currently registered
template, otherwise run the add operation, and on any failure unregister
everything this call added before returning the error. addRes is the oracle
for the external engine's add operation on this source: none means the engine
accepted it and registered the id, some e means it failed without
registering. Returns the final registered key set and the result. -/
def loadLoop (collisionErr : String → ε) (addRes : TemplateSource → Option ε) :
    List SubTemplateSpec → List String → List String →
    List String × Except ε Unit
  | [], templates, _loaded => (templates, .ok ())
  | sub :: rest, templates, loaded =>
    let i := sub.source.id
    if templates.contains i then
      (errorCleanup templates loaded, .error (collisionErr i))
    else
      match addRes sub.source with
      | some e => (errorCleanup templates loaded, .error e)
      | none => loadLoop collisionErr addRes rest (i :: templates) (loaded ++ [i])

/-- Embedding of TeraRenderEngine::load_templates (src/src/tera/mod.rs lines
87 to 111) acting on the key set of tera.templates. -/
def teraLoadTemplates (addRes : TemplateSource → Option TeraError)
    (spec : TemplateSpec) (templates : List String) :
    List String × Except TeraError Unit :=
  loadLoop (fun i => TeraError.TemplateIdCollision i) addRes spec.templates.val
    templates []

/-- Embedding of TeraRenderEngine::unload_templates (src/src/tera/mod.rs lines
115 to 120): remove each sub template id from the registry, in spec order. -/
def unload_templates (spec : TemplateSpec) (templates : List String) :
    List String :=
  spec.templates.val.foldl (fun ts sub => ts.erase sub.source.id) templates

/-- Embedding of error::InsertionError as constructed by insert_spec. -/
structure InsertionError (ε : Type) where
  error : ε
  failed_new_value : TemplateSpec
  old_value : Option TemplateSpec
deriving DecidableEq

/-- Embedding of RenderTemplateEngine (src/src/rte.rs lines 17 to 25)
specialised to the Tera engine model: the id-to-spec registry is an
association list with unique keys, the engine state is the key set of its
loaded templates. -/
structure RTE where
  fix_newlines : Bool
  id2spec : List (String × TemplateSpec)
  engine : List String
  global_embeddings : CidMap
deriving DecidableEq

/-- Embedding of lookup_spec (src/src/rte.rs lines 150 to 152). -/
def lookup_spec (rte : RTE) (template_id : String) : Option TemplateSpec :=
  List.lookup template_id rte.id2spec

/-- OccupiedEntry::insert on the association list: replace the bound value in
place, keeping the entry position. -/
def replaceEntry (l : List (String × TemplateSpec)) (k : String)
    (v : TemplateSpec) : List (String × TemplateSpec) :=
  match l with
  | [] => []
  | kv :: rest => if kv.1 == k then (kv.1, v) :: rest else kv :: replaceEntry rest k v

/-- OccupiedEntry::remove_entry on the association list: drop the binding. -/
def removeEntry (l : List (String × TemplateSpec)) (k : String) :
    List (String × TemplateSpec) :=
  l.eraseP (fun kv => kv.1 == k)

/-- Embedding of RenderTemplateEngine::insert_spec (src/src/rte.rs lines 98 to
132) over the Tera engine model. Occupied entry: displace old, unload old,
load new, and on failure remove the binding entirely. Vacant entry: load new
and bind only on success. -/
def insert_spec (addRes : TemplateSource → Option TeraError) (rte : RTE)
    (id : String) (spec : TemplateSpec) :
    RTE × Except (InsertionError TeraError) (Option TemplateSpec) :=
  match List.lookup id rte.id2spec with
  | some old =>
    let m1 := replaceEntry rte.id2spec id spec
    let e1 := unload_templates old rte.engine
    match teraLoadTemplates addRes spec e1 with
    | (e2, .error err) =>
      (⟨rte.fix_newlines, removeEntry m1 id, e2, rte.global_embeddings⟩,
       .error ⟨err, spec, some old⟩)
    | (e2, .ok _) =>
      (⟨rte.fix_newlines, m1, e2, rte.global_embeddings⟩, .ok (some old))
  | none =>
    match teraLoadTemplates addRes spec rte.engine with
    | (e2, .error err) =>
      (⟨rte.fix_newlines, rte.id2spec, e2, rte.global_embeddings⟩,
       .error ⟨err, spec, none⟩)
    | (e2, .ok _) =>
      (⟨rte.fix_newlines, rte.id2spec ++ [(id, spec)], e2, rte.global_embeddings⟩,
       .ok none)

/-- Render-context model: mints content ids for the inline and attachment
dispositions (EmbeddedWithCId::inline and ::attachment with the caller's
Context). -/
structure RenderCtx where
  inline : Resource → ContentId
  attachment : Resource → ContentId

/-- Embedding of create_embedding (src/src/rte.rs lines 220 to 227). -/
def create_embedding (ctx : RenderCtx) (key : String) (resource : Resource) :
    String × EmbeddedWithCId :=
  (key, ⟨ctx.inline resource⟩)

/-- One alternate-body record of the render result (template::BodyPart): the
rendered content with its media type, plus the body-specific embeddings. -/
structure BodyPart where
  media_type : String
  content : String
  embeddings : List EmbeddedWithCId
deriving DecidableEq

/-- The render result (template::MailParts). -/
structure MailParts where
  alternative_bodies : List BodyPart
  shared_embeddings : List EmbeddedWithCId
  attachments : List EmbeddedWithCId
deriving DecidableEq

/-- One iteration of the try_mapped_ref closure in use_template
(src/src/rte.rs lines 178 to 204): build this body's embedding layer, render
with the three cid layers in order (body, shared, global), optionally fix
newlines, and emit the body part. renderFn models R::render already applied
to the caller's data; fixFn models utils::fix_newlines (the utils module is
not part of the excerpt). -/
def renderBody (renderFn : SubTemplateSpec → List CidMap → Except ε String)
    (ctx : RenderCtx) (fixNl : Bool) (fixFn : String → String)
    (shared globalEmb : CidMap) (sub : SubTemplateSpec) : Except ε BodyPart :=
  let embeddings := sub.embeddings.map (fun kv => create_embedding ctx kv.1 kv.2)
  match renderFn sub [embeddings, shared, globalEmb] with
  | .error e => .error e
  | .ok rendered =>
    let rendered2 := if fixNl then fixFn rendered else rendered
    .ok ⟨sub.media_type, rendered2, embeddings.map (fun kv => kv.2)⟩

/-- Embedding of use_template (src/src/rte.rs lines 162 to 217). -/
def use_template (renderFn : SubTemplateSpec → List CidMap → Except ε String)
    (unknownIdErr : String → ε) (ctx : RenderCtx) (fixFn : String → String)
    (rte : RTE) (template_id : String) : Except ε MailParts :=
  match lookup_spec rte template_id with
  | none => .error (unknownIdErr template_id)
  | some spec =>
    let shared := spec.embeddings.map (fun kv => create_embedding ctx kv.1 kv.2)
    match tryMap
        (renderBody renderFn ctx rte.fix_newlines fixFn shared
          rte.global_embeddings)
        spec.templates.val with
    | .error e => .error e
    | .ok bodies =>
      .ok ⟨bodies, shared.map (fun kv => kv.2),
           spec.attachments.map (fun r => ⟨ctx.attachment r⟩)⟩

/-- Embedding of handlebars::error::LoadingError; external parse and io
failures are collapsed to a code. -/
inductive HbLoadingError where
  | TemplateIdCollision (id : String)
  | FreeTemplateIdCollision (id : String)
  | TemplateParsing (code : Nat)
  | IoFailure (code : Nat)
deriving DecidableEq

/-- Embedding of the HandlebarsRenderEngine state
(src/src/handlebars/mod.rs lines 44 to 48): the key set of the inner
Handlebars registry plus the set of free template names. -/
structure HbState where
  templates : List String
  free_templates : List String
deriving DecidableEq

/-- Handlebars::register_template_string on the key set: an existing template
with that name is overwritten, so the key set just gains the name. -/
def hbRegisterKey (templates : List String) (name : String) : List String :=
  if templates.contains name then templates else name :: templates

/-- Embedding of HandlebarsRenderEngine::register_free_template_string
(src/src/handlebars/mod.rs lines 93 to 102, with check_new_free_template_name
and insert_free_template, lines 214 to 229). parseOk is the oracle for the
external Handlebars parser accepting the template string; on a parse failure
nothing is registered. -/
def register_free_template_string (st : HbState) (name : String)
    (parseOk : Bool) : Except HbLoadingError HbState :=
  if !st.free_templates.contains name && st.templates.contains name then
    .error (.FreeTemplateIdCollision name)
  else if parseOk then
    .ok ⟨hbRegisterKey st.templates name, hbRegisterKey st.free_templates name⟩
  else .error (.TemplateParsing 0)

/-- Embedding of HandlebarsRenderEngine::load_templates
(src/src/handlebars/mod.rs lines 240 to 250): the implement_load_helper
expansion over the Handlebars key set. has_template_fn is
hbs.get_template(id).is_some(), which sees free and non-free templates alike;
free_templates is untouched by loading and by the rollback. -/
def hbLoadTemplates (addRes : TemplateSource → Option HbLoadingError)
    (spec : TemplateSpec) (st : HbState) : HbState × Except HbLoadingError Unit :=
  match loadLoop (fun i => HbLoadingError.TemplateIdCollision i) addRes
      spec.templates.val st.templates [] with
  | (templates2, res) => (⟨templates2, st.free_templates⟩, res)

/-- The embedding name a file entry would get (the leading dot-segment). -/
def embName (f : FileEntry) : String := leadingName f.fileName

/-- Whether an Except is a success (Result::is_ok). -/
def exceptIsOk : Except ε α → Bool
  | .ok _ => true
  | .error _ => false

/-! Concrete fixtures used by witnesses and counterexamples. -/

/-- Add oracle: the Tera engine accepts every source. -/
def arNone : TemplateSource → Option TeraError := fun _ => none

/-- Add oracle: the Handlebars engine accepts every source. -/
def arHbNone : TemplateSource → Option HbLoadingError := fun _ => none

/-- A one-line inline sub template with the given id. -/
def subOf (i : String) : SubTemplateSpec := ⟨"text/plain", .Source i "tpl", []⟩

/-- A spec with a single inline sub template. -/
def specOf (i : String) : TemplateSpec :=
  ⟨none, ⟨[subOf i], List.cons_ne_nil _ _⟩, [], []⟩

/-- A spec with two inline sub templates. -/
def specOf2 (i j : String) : TemplateSpec :=
  ⟨none, ⟨[subOf i, subOf j], List.cons_ne_nil _ _⟩, [], []⟩

/-- Settings that sniff every file as octet-stream and know no directory type. -/
def s0 : LoadSpecSettings := ⟨fun _ => none, fun _ => some "application/octet-stream"⟩

/-- Registry state reached from empty by loading spec "Y" under "b" and then
spec "X" under "a" (both succeed). -/
def rteC2 : RTE := ⟨false, [("b", specOf "Y"), ("a", specOf "X")], ["X", "Y"], []⟩

/-- Registry state after the failed replacement of "a" by a spec with sub ids
X2 and Y: the binding is gone, X was unloaded, Y (loaded by "b") remains. -/
def outC2 : RTE := ⟨false, [("b", specOf "Y")], ["Y"], []⟩

/-- The insertion error produced by that failed replacement. -/
def errC2 : InsertionError TeraError :=
  ⟨.TemplateIdCollision "Y", specOf2 "X2" "Y", some (specOf "X")⟩

/-- Type descriptor for plain-text bodies used by s4. -/
def ty4 : TypeDescr := ⟨[".txt"], "mail", fun _ => some "text/plain"⟩

/-- Settings knowing one directory type "text" with priority 0. -/
def s4 : LoadSpecSettings :=
  ⟨fun n => if n == "text" then some (0, ty4) else none,
   fun _ => some "application/x-any"⟩

/-- Base-directory listing with two files deriving the embedding name "logo"
plus one valid candidate subdirectory. -/
def entries4 : List FsEntry :=
  [.nondir ⟨"logo.png", true⟩, .nondir ⟨"logo.jpg", true⟩,
   .dir "text" [⟨"mail.txt", true⟩]]

/-- The spec from_dir actually returns for entries4: one shared embedding,
bound to the LATER file (logo.jpg), the earlier logo.png silently dropped. -/
def spec4 : TemplateSpec :=
  ⟨some "b", ⟨[⟨"text/plain", .Path "b/text/mail.txt", []⟩], List.cons_ne_nil _ _⟩,
   [("logo", ⟨"path:b/logo.jpg", "application/x-any"⟩)], []⟩

/-- Type descriptor for text bodies. -/
def tyText : TypeDescr := ⟨[".txt"], "mail", fun _ => some "text/plain"⟩

/-- Type descriptor for html bodies. -/
def tyHtml : TypeDescr := ⟨[".html"], "mail", fun _ => some "text/html"⟩

/-- Settings with "text" at priority 0 and "html" at priority 1. -/
def s7 : LoadSpecSettings :=
  ⟨fun n => if n == "text" then some (0, tyText)
            else if n == "html" then some (1, tyHtml) else none,
   fun _ => some "m"⟩

/-- Base listing with html before text in directory order (priorities flip
them). -/
def entries7 : List FsEntry :=
  [.dir "html" [⟨"mail.html", true⟩], .dir "text" [⟨"mail.txt", true⟩]]

/-- The text sub spec compiled from entries7. -/
def subText7 : SubTemplateSpec := ⟨"text/plain", .Path "B/text/mail.txt", []⟩

/-- The html sub spec compiled from entries7. -/
def subHtml7 : SubTemplateSpec := ⟨"text/html", .Path "B/html/mail.html", []⟩

/-- The spec compiled from entries7: text first (priority 0), html second. -/
def spec7 : TemplateSpec :=
  ⟨some "B", ⟨[subText7, subHtml7], List.cons_ne_nil _ _⟩, [], []⟩

/-- A registry holding spec7 under id "t7". -/
def rte7 : RTE := ⟨false, [("t7", spec7)], [], []⟩

/-- A render oracle echoing the sub template's id. -/
def renderFn7 : SubTemplateSpec → List CidMap → Except TeraError String :=
  fun sub _ => .ok sub.source.id

/-- A render context minting content id 0 for everything. -/
def ctx0 : RenderCtx := ⟨fun _ => 0, fun _ => 0⟩

/-- The candidate list scanEntries collects from entries7 (directory order). -/
def cands7 : List Candidate :=
  [(1, ("B/html", tyHtml, [⟨"mail.html", true⟩])),
   (0, ("B/text", tyText, [⟨"mail.txt", true⟩]))]

/-- The render result of use_template on rte7 with renderFn7. -/
def parts7 : MailParts :=
  ⟨[⟨"text/plain", "B/text/mail.txt", []⟩, ⟨"text/html", "B/html/mail.html", []⟩],
   [], []⟩

/-! ### Helper lemmas -/

theorem lookup_eq_none_of_not_mem_keys {β : Type} (k : String)
    (l : List (String × β)) (h : k ∉ l.map Prod.fst) : List.lookup k l = none := by
  induction l with
  | nil => rfl
  | cons kv rest ih =>
    obtain ⟨k1, v1⟩ := kv
    simp only [List.map_cons, List.mem_cons, not_or] at h
    simpa [List.lookup, beq_false_of_ne h.1] using ih h.2

theorem errorCleanup_restores : ∀ (loaded s : List String), loaded.Nodup →
    (∀ x ∈ loaded, x ∉ s) → errorCleanup (loaded.reverse ++ s) loaded = s := by
  intro loaded
  induction loaded with
  | nil => intro s _ _; rfl
  | cons a t ih =>
    intro s hnd hdisj
    have hat : a ∉ t := (List.nodup_cons.mp hnd).1
    have hrev : a ∉ t.reverse := fun hx => hat (List.mem_reverse.mp hx)
    have h1 : (a :: t).reverse ++ s = t.reverse ++ (a :: s) := by
      simp [List.reverse_cons, List.append_assoc]
    rw [h1]
    show errorCleanup ((t.reverse ++ (a :: s)).erase a) t = s
    rw [List.erase_append_right _ hrev, List.erase_cons_head]
    exact ih s (List.nodup_cons.mp hnd).2 (fun x hx => hdisj x (List.mem_cons_of_mem _ hx))

theorem loadLoop_error_state {ε : Type} (ce : String → ε)
    (ar : TemplateSource → Option ε) :
    ∀ (subs : List SubTemplateSpec) (loaded s : List String),
    loaded.Nodup → (∀ x ∈ loaded, x ∉ s) →
    ∀ e, (loadLoop ce ar subs (loaded.reverse ++ s) loaded).2 = .error e →
    (loadLoop ce ar subs (loaded.reverse ++ s) loaded).1 = s := by
  intro subs
  induction subs with
  | nil => intro loaded s _ _ e he; cases he
  | cons sub rest ih =>
    intro loaded s hnd hdisj e he
    by_cases hc : (loaded.reverse ++ s).contains sub.source.id
    · simp only [loadLoop, hc, if_pos]
      exact errorCleanup_restores loaded s hnd hdisj
    · have hmem : sub.source.id ∉ loaded ∧ sub.source.id ∉ s := by
        have hc2 : sub.source.id ∉ loaded.reverse ++ s := by simpa using hc
        simp only [List.mem_append, List.mem_reverse] at hc2
        push_neg at hc2
        exact hc2
      cases har : ar sub.source with
      | some e2 =>
        simp only [loadLoop, hc, if_neg, Bool.false_eq_true, not_false_iff, har]
        exact errorCleanup_restores loaded s hnd hdisj
      | none =>
        have hrw : sub.source.id :: (loaded.reverse ++ s)
            = (loaded ++ [sub.source.id]).reverse ++ s := by
          simp [List.reverse_append]
        have hnd2 : (loaded ++ [sub.source.id]).Nodup := by
          simp [List.nodup_append, hnd, hmem.1]
        have hdisj2 : ∀ x ∈ loaded ++ [sub.source.id], x ∉ s := by
          intro x hx
          rcases List.mem_append.mp hx with hx1 | hx2
          · exact hdisj x hx1
          · rcases List.mem_singleton.mp hx2 with rfl
            exact hmem.2
        have := ih (loaded ++ [sub.source.id]) s hnd2 hdisj2 e
        simp only [loadLoop, hc, if_neg, Bool.false_eq_true, not_false_iff, har] at he ⊢
        rw [hrw] at *
        exact this he

theorem loadLoop_collision {ε : Type} (ce : String → ε)
    (ar : TemplateSource → Option ε) :
    ∀ (subs : List SubTemplateSpec) (loaded s : List String),
    (∀ sub ∈ subs, ar sub.source = none) →
    (∃ sub ∈ subs, sub.source.id ∈ s) →
    loaded.Nodup → (∀ x ∈ loaded, x ∉ s) →
    ∃ c, loadLoop ce ar subs (loaded.reverse ++ s) loaded = (s, .error (ce c)) := by
  intro subs
  induction subs with
  | nil =>
    intro loaded s _ hex _ _
    rcases hex with ⟨sub, hmem, _⟩
    cases hmem
  | cons sub rest ih =>
    intro loaded s hadd hex hnd hdisj
    by_cases hc : (loaded.reverse ++ s).contains sub.source.id
    · refine ⟨sub.source.id, ?_⟩
      simp only [loadLoop, hc, if_pos]
      rw [errorCleanup_restores loaded s hnd hdisj]
    · have hmem : sub.source.id ∉ loaded ∧ sub.source.id ∉ s := by
        have hc2 : sub.source.id ∉ loaded.reverse ++ s := by simpa using hc
        simp only [List.mem_append, List.mem_reverse] at hc2
        push_neg at hc2
        exact hc2
      have har : ar sub.source = none := hadd sub (List.mem_cons_self _ _)
      have hex2 : ∃ sub2 ∈ rest, sub2.source.id ∈ s := by
        rcases hex with ⟨sub2, hmem2, hid2⟩
        rcases List.mem_cons.mp hmem2 with rfl | hm3
        · exact absurd hid2 hmem.2
        · exact ⟨sub2, hm3, hid2⟩
      have hrw : sub.source.id :: (loaded.reverse ++ s)
          = (loaded ++ [sub.source.id]).reverse ++ s := by
        simp [List.reverse_append]
      have hnd2 : (loaded ++ [sub.source.id]).Nodup := by
        simp [List.nodup_append, hnd, hmem.1]
      have hdisj2 : ∀ x ∈ loaded ++ [sub.source.id], x ∉ s := by
        intro x hx
        rcases List.mem_append.mp hx with hx1 | hx2
        · exact hdisj x hx1
        · rcases List.mem_singleton.mp hx2 with rfl
          exact hmem.2
      have := ih (loaded ++ [sub.source.id]) s
        (fun sub2 h2 => hadd sub2 (List.mem_cons_of_mem _ h2)) hex2 hnd2 hdisj2
      simp only [loadLoop, hc, if_neg, Bool.false_eq_true, not_false_iff, har]
      rw [hrw]
      exact this

theorem mem_foldl_erase (i : String) :
    ∀ (ids ts : List String), i ∈ ids.foldl (fun t j => t.erase j) ts → i ∈ ts := by
  intro ids
  induction ids with
  | nil => intro ts h; exact h
  | cons a rest ih =>
    intro ts h
    exact List.mem_of_mem_erase (ih (ts.erase a) h)

theorem foldl_erase_not_mem :
    ∀ (ids ts : List String), ts.Nodup →
    ∀ i ∈ ids, i ∉ ids.foldl (fun t j => t.erase j) ts := by
  intro ids
  induction ids with
  | nil => intro ts _ i hi; cases hi
  | cons a rest ih =>
    intro ts hnd i hi hmem
    rcases List.mem_cons.mp hi with rfl | hi2
    · exact hnd.not_mem_erase (mem_foldl_erase i rest (ts.erase i) hmem)
    · exact ih (ts.erase a) (hnd.erase a) i hi2 hmem

theorem unload_templates_eq_foldl (spec : TemplateSpec) (ts : List String) :
    unload_templates spec ts = spec.subIds.foldl (fun t j => t.erase j) ts := by
  unfold unload_templates TemplateSpec.subIds
  rw [List.foldl_map]

theorem removeEntry_replaceEntry (l : List (String × TemplateSpec))
    (k : String) (v : TemplateSpec) :
    removeEntry (replaceEntry l k v) k = removeEntry l k := by
  induction l with
  | nil => rfl
  | cons kv rest ih =>
    by_cases hk : kv.1 == k
    · simp [replaceEntry, removeEntry, List.eraseP_cons, hk]
    · simp only [replaceEntry, hk, Bool.false_eq_true, if_false]
      simp only [removeEntry, List.eraseP_cons, hk, Bool.false_eq_true]
      simpa [removeEntry] using ih

theorem lookup_removeEntry_self (l : List (String × TemplateSpec)) (k : String)
    (hnd : (l.map Prod.fst).Nodup) : List.lookup k (removeEntry l k) = none := by
  induction l with
  | nil => rfl
  | cons kv rest ih =>
    obtain ⟨k1, v1⟩ := kv
    simp only [List.map_cons, List.nodup_cons] at hnd
    by_cases hk : k1 == k
    · have hkk : k1 = k := eq_of_beq hk
      subst hkk
      simp only [removeEntry, List.eraseP_cons, hk, if_pos]
      exact lookup_eq_none_of_not_mem_keys k1 rest hnd.1
    · simp only [removeEntry, List.eraseP_cons, hk, Bool.false_eq_true, if_false]
      have hk2 : (k == k1) = false := by
        rcases beq_eq_false_iff_ne.mp (Bool.of_not_eq_true hk) with hne
        exact beq_false_of_ne (fun hx => hne hx.symm)
      simpa [List.lookup, hk2, removeEntry] using ih hnd.2

theorem embedding_ok_name (settings : LoadSpecSettings) (parent : String)
    (f : FileEntry) (k : String) (r : Resource)
    (h : embedding_from_path settings parent f = .ok (k, r)) : k = embName f := by
  unfold embedding_from_path at h
  by_cases hf : f.isFile = false
  · simp [hf] at h
  · rw [if_neg hf] at h
    cases hmt : settings.determine_media_type (parent ++ "/" ++ f.fileName) with
    | none => simp [hmt] at h
    | some mt =>
      simp only [hmt] at h
      injection h with h2
      exact (congrArg Prod.fst h2).symm

theorem exceptIsOk_ok {ε α : Type} (x : Except ε α)
    (h : exceptIsOk x = true) : ∃ a, x = .ok a := by
  cases x with
  | ok a => exact ⟨a, rfl⟩
  | error e => cases h

theorem findFilesLoop_append (settings : LoadSpecSettings) (dir : String) :
    ∀ (l1 l2 : List FileEntry) (tf : Option String)
    (others : List (String × Resource)) (tf1 : Option String)
    (o1 : List (String × Resource)),
    findFilesLoop settings dir l1 tf others = .ok (tf1, o1) →
    findFilesLoop settings dir (l1 ++ l2) tf others
      = findFilesLoop settings dir l2 tf1 o1 := by
  intro l1
  induction l1 with
  | nil =>
    intro l2 tf others tf1 o1 h
    injection h with h2
    injection h2 with ha hb
    subst ha
    subst hb
    rfl
  | cons x l1' ih =>
    intro l2 tf others tf1 o1 h
    show findFilesLoop settings dir (x :: (l1' ++ l2)) tf others = _
    by_cases hx : is_template_file x
    · cases tf with
      | none =>
        simp only [findFilesLoop, hx, if_pos] at h ⊢
        exact ih l2 _ _ _ _ h
      | some t =>
        simp only [findFilesLoop, hx, if_pos] at h
        cases h
    · simp only [findFilesLoop, hx, Bool.false_eq_true, if_false] at h ⊢
      cases hemb : embedding_from_path settings dir x with
      | error e => simp [hemb] at h
      | ok kv =>
        obtain ⟨k, v⟩ := kv
        simp only [hemb] at h ⊢
        by_cases hlk : (List.lookup k others).isSome
        · simp [hlk] at h
        · simp only [hlk, Bool.false_eq_true, if_false] at h ⊢
          exact ih l2 _ _ _ _ h

theorem findFilesLoop_embeddings_only (settings : LoadSpecSettings)
    (dir : String) :
    ∀ (contents : List FileEntry) (tf : Option String)
    (others : List (String × Resource)),
    (∀ x ∈ contents, is_template_file x = false) →
    (∀ x ∈ contents, exceptIsOk (embedding_from_path settings dir x) = true) →
    (others.map Prod.fst ++ contents.map embName).Nodup →
    ∃ o2, findFilesLoop settings dir contents tf others = .ok (tf, o2)
      ∧ o2.map Prod.fst = others.map Prod.fst ++ contents.map embName := by
  intro contents
  induction contents with
  | nil => intro tf others _ _ _; exact ⟨others, rfl, by simp⟩
  | cons x rest ih =>
    intro tf others h1 h2 h3
    have hx1 : is_template_file x = false := h1 x (List.mem_cons_self _ _)
    obtain ⟨⟨k, v⟩, hkv⟩ := exceptIsOk_ok _ (h2 x (List.mem_cons_self _ _))
    have hk : k = embName x :=
      embedding_ok_name settings dir x k v hkv
    subst hk
    have hnotmem : embName x ∉ others.map Prod.fst := by
      intro hmem
      rcases List.nodup_append.mp h3 with ⟨_, _, hdisj⟩
      exact hdisj hmem (by simp)
    have hlk : List.lookup (embName x) others = none :=
      lookup_eq_none_of_not_mem_keys _ _ hnotmem
    have h3b : ((others ++ [(embName x, v)]).map Prod.fst
        ++ rest.map embName).Nodup := by
      simpa [List.append_assoc] using h3
    obtain ⟨o2, ho1, ho2⟩ := ih tf (others ++ [(embName x, v)])
      (fun y hy => h1 y (List.mem_cons_of_mem _ hy))
      (fun y hy => h2 y (List.mem_cons_of_mem _ hy)) h3b
    refine ⟨o2, ?_, ?_⟩
    · simp only [findFilesLoop, hx1, Bool.false_eq_true, if_false, hkv, hlk,
        Option.isSome_none, if_false]
      exact ho1
    · rw [ho2]; simp [List.append_assoc]

theorem mem_insertByKey {α : Type} (x y : Nat × α) :
    ∀ l, y ∈ insertByKey x l ↔ y = x ∨ y ∈ l := by
  intro l
  induction l with
  | nil => simp [insertByKey]
  | cons z zs ih =>
    by_cases h : x.1 ≤ z.1
    · simp [insertByKey, h, List.mem_cons]
    · simp only [insertByKey, h, if_false, List.mem_cons, ih]
      tauto

theorem pairwise_insertByKey {α : Type} (x : Nat × α) :
    ∀ l : List (Nat × α), l.Pairwise (fun a b => a.1 ≤ b.1) →
    (insertByKey x l).Pairwise (fun a b => a.1 ≤ b.1) := by
  intro l
  induction l with
  | nil => intro _; simp [insertByKey]
  | cons z zs ih =>
    intro hp
    rcases List.pairwise_cons.mp hp with ⟨hz, hzs⟩
    by_cases h : x.1 ≤ z.1
    · simp only [insertByKey, h, if_pos]
      refine List.Pairwise.cons ?_ hp
      intro b hb
      rcases List.mem_cons.mp hb with rfl | hb2
      · exact h
      · exact le_trans h (hz b hb2)
    · simp only [insertByKey, h, if_false]
      refine List.Pairwise.cons ?_ (ih hzs)
      intro b hb
      rcases (mem_insertByKey x b zs).mp hb with rfl | hb2
      · omega
      · exact hz b hb2

theorem sortByKey_sorted {α : Type} :
    ∀ l : List (Nat × α), (sortByKey l).Pairwise (fun a b => a.1 ≤ b.1) := by
  intro l
  induction l with
  | nil => simp [sortByKey]
  | cons x xs ih => exact pairwise_insertByKey x _ ih

theorem filter_insertByKey {α : Type} (k : Nat) (x : Nat × α) :
    ∀ l, (insertByKey x l).filter (fun p => p.1 == k)
      = if x.1 == k then x :: l.filter (fun p => p.1 == k)
        else l.filter (fun p => p.1 == k) := by
  intro l
  induction l with
  | nil =>
    by_cases h : x.1 == k <;> simp [insertByKey, List.filter_cons, h]
  | cons z zs ih =>
    by_cases h : x.1 ≤ z.1
    · by_cases hx : x.1 == k <;> simp [insertByKey, h, List.filter_cons, hx]
    · by_cases hz : z.1 == k
      · have hxk : (x.1 == k) = false := by
          have h1 : z.1 = k := by simpa using hz
          have h2 : ¬x.1 = k := by omega
          simpa using h2
        simp [insertByKey, h, List.filter_cons, hz, ih, hxk]
      · simp [insertByKey, h, List.filter_cons, hz, ih]

theorem sortByKey_filter_stable {α : Type} (k : Nat) :
    ∀ l : List (Nat × α),
    (sortByKey l).filter (fun p => p.1 == k) = l.filter (fun p => p.1 == k) := by
  intro l
  induction l with
  | nil => rfl
  | cons x xs ih =>
    show (insertByKey x (sortByKey xs)).filter (fun p => p.1 == k) = _
    rw [filter_insertByKey k x (sortByKey xs), ih]
    by_cases hx : x.1 == k <;> simp [List.filter_cons, hx]

theorem tryMap_length {α β ε : Type} (f : α → Except ε β) :
    ∀ (l : List α) (out : List β), tryMap f l = .ok out → out.length = l.length := by
  intro l
  induction l with
  | nil =>
    intro out h
    injection h with h2
    subst h2
    rfl
  | cons a l ih =>
    intro out h
    simp only [tryMap] at h
    cases hfa : f a with
    | error e => simp [hfa] at h
    | ok b =>
      simp only [hfa] at h
      cases hrest : tryMap f l with
      | error e => simp [hrest] at h
      | ok bs =>
        simp only [hrest] at h
        injection h with h2
        subst h2
        simp [ih bs hrest]

theorem tryMap_get {α β ε : Type} (f : α → Except ε β) :
    ∀ (l : List α) (out : List β), tryMap f l = .ok out →
    ∀ i (h1 : i < l.length) (h2 : i < out.length),
      f (l.get ⟨i, h1⟩) = .ok (out.get ⟨i, h2⟩) := by
  intro l
  induction l with
  | nil => intro out h i h1 h2; exact absurd h1 (Nat.not_lt_zero i)
  | cons a l ih =>
    intro out h i h1 h2
    simp only [tryMap] at h
    cases hfa : f a with
    | error e => simp [hfa] at h
    | ok b =>
      simp only [hfa] at h
      cases hrest : tryMap f l with
      | error e => simp [hrest] at h
      | ok bs =>
        simp only [hrest] at h
        injection h with h3
        subst h3
        cases i with
        | zero => exact hfa
        | succ j =>
          exact ih bs hrest j (Nat.lt_of_succ_lt_succ h1) (Nat.lt_of_succ_lt_succ h2)

/-- Whether a base-directory entry is a non-directory whose embedding builds
without error (the shape of input that exercises the empty-candidate arm of
from_dir). -/
def isOkFileEntry (settings : LoadSpecSettings) (base : String) : FsEntry → Bool
  | .nondir f => exceptIsOk (embedding_from_path settings base f)
  | .dir _ _ => false

theorem scanEntries_files_only (settings : LoadSpecSettings) (base : String) :
    ∀ (entries : List FsEntry) (dirs : List Candidate)
    (globs : List (String × Resource)),
    entries.all (isOkFileEntry settings base) = true →
    ∃ globs2, scanEntries settings base entries (dirs, globs) = .ok (dirs, globs2) := by
  intro entries
  induction entries with
  | nil => intro dirs globs _; exact ⟨globs, rfl⟩
  | cons e rest ih =>
    intro dirs globs hall
    rw [List.all_cons, Bool.and_eq_true] at hall
    cases e with
    | dir name contents => simp [isOkFileEntry] at hall
    | nondir f =>
      obtain ⟨⟨k, v⟩, hkv⟩ := exceptIsOk_ok _
        (by simpa [isOkFileEntry] using hall.1)
      simp only [scanEntries, hkv]
      exact ih dirs (mapInsert globs k v) hall.2

/-! ### Claim theorems -/

/-- C5: AdditionalCIds::get returns the content id stored in the first
(highest-precedence) layer whose map contains the name, and returns none
exactly when no layer contains the name; in particular with layers
L1 = a to X, L2 = a to Y and b to Z, L3 = b to W, get a = X and get b = Z. -/
theorem claim_C5_get_precedence :
    (∀ (layers : List CidMap) (name : String),
      acidsGet layers name =
        (layers.find? (fun m => (List.lookup name m).isSome)).bind
          (fun m => (List.lookup name m).map (fun r => r.content_id)))
    ∧ (∀ (layers : List CidMap) (name : String),
      acidsGet layers name = none ↔ ∀ m ∈ layers, List.lookup name m = none)
    ∧ acidsGet [[("a", ⟨1⟩)], [("a", ⟨2⟩), ("b", ⟨3⟩)], [("b", ⟨4⟩)]] "a" = some 1
    ∧ acidsGet [[("a", ⟨1⟩)], [("a", ⟨2⟩), ("b", ⟨3⟩)], [("b", ⟨4⟩)]] "b" = some 3 := by
  refine ⟨?_, ?_, rfl, rfl⟩
  · intro layers name
    induction layers with
    | nil => rfl
    | cons m rest ih =>
      cases h : List.lookup name m with
      | some r => simp [acidsGet, h, List.find?_cons]
      | none => simp [acidsGet, h, List.find?_cons, ih]
  · intro layers name
    induction layers with
    | nil => simp [acidsGet]
    | cons m rest ih =>
      cases h : List.lookup name m with
      | some r =>
        simp only [acidsGet, h]
        constructor
        · intro hx; cases hx
        · intro hall
          have hm := hall m (List.mem_cons_self m rest)
          rw [h] at hm; cases hm
      | none =>
        simp only [acidsGet, h]
        rw [ih]
        constructor
        · intro hall m2 hm2
          rcases List.mem_cons.mp hm2 with rfl | hm3
          · exact h
          · exact hall m2 hm3
        · intro hall m2 hm2
          exact hall m2 (List.mem_cons_of_mem _ hm2)

/-- C1: if load_templates returns an error (an id collision with ANY
previously loaded id, or a failure while adding one sub template), every
registration performed during the call has been rolled back, so the backend's
set of loaded template ids is exactly what it was before the call. -/
theorem claim_C1_load_rollback (ar : TemplateSource → Option TeraError)
    (spec : TemplateSpec) (templates : List String) (e : TeraError)
    (h : (teraLoadTemplates ar spec templates).2 = .error e) :
    (teraLoadTemplates ar spec templates).1 = templates :=
  loadLoop_error_state (fun i => TeraError.TemplateIdCollision i) ar
    spec.templates.val [] templates List.nodup_nil
    (fun x hx => absurd hx (List.not_mem_nil x)) e h

theorem claim_C1_load_rollback_witness :
    (teraLoadTemplates arNone (specOf2 "T" "T") ["t0"]).2
      = .error (.TemplateIdCollision "T")
    ∧ (teraLoadTemplates arNone (specOf2 "T" "T") ["t0"]).1 = ["t0"] :=
  ⟨rfl, claim_C1_load_rollback arNone (specOf2 "T" "T") ["t0"] _ rfl⟩

/-- C10: for the Handlebars backend, when every add operation would be
accepted by the engine, load_templates fails with TemplateIdCollision
whenever some sub specification's source id equals the name of a template
already registered in the underlying Handlebars instance (free templates,
registered through register_free_template_string and friends, live in the
same registry and therefore collide too), and the whole state, including
everything registered earlier in the same call, is restored before the error
is returned. -/
theorem claim_C10_hb_collision (ar : TemplateSource → Option HbLoadingError)
    (spec : TemplateSpec) (st : HbState)
    (hadd : ∀ sub ∈ spec.templates.val, ar sub.source = none)
    (hcol : spec.templates.val.any
      (fun sub => st.templates.contains sub.source.id) = true) :
    ∃ c, hbLoadTemplates ar spec st = (st, .error (.TemplateIdCollision c)) := by
  have hex : ∃ sub ∈ spec.templates.val, sub.source.id ∈ st.templates := by
    rcases List.any_eq_true.mp hcol with ⟨sub, hmem, hc⟩
    exact ⟨sub, hmem, by simpa using hc⟩
  rcases loadLoop_collision (fun i => HbLoadingError.TemplateIdCollision i) ar
    spec.templates.val [] st.templates hadd hex List.nodup_nil
    (fun x hx => absurd hx (List.not_mem_nil x)) with ⟨c, hc⟩
  have hc2 : loadLoop (fun i => HbLoadingError.TemplateIdCollision i) ar
      spec.templates.val st.templates []
      = (st.templates, .error (HbLoadingError.TemplateIdCollision c)) := hc
  exact ⟨c, by simp [hbLoadTemplates, hc2]⟩

theorem claim_C10_hb_collision_witness :
    register_free_template_string ⟨[], []⟩ "free1" true = .ok ⟨["free1"], ["free1"]⟩
    ∧ ∃ c, hbLoadTemplates arHbNone (specOf2 "A" "free1") ⟨["free1"], ["free1"]⟩
        = (⟨["free1"], ["free1"]⟩, .error (.TemplateIdCollision c)) :=
  ⟨rfl, claim_C10_hb_collision arHbNone (specOf2 "A" "free1") ⟨["free1"], ["free1"]⟩
    (by decide) (by decide)⟩

/-- C2 (amended): if insert_spec(id, spec) returns an error then afterwards
lookup_spec(id) returns nothing and the error carries the failed spec. When id
was previously unbound, the registry map and the backend are exactly as before
the call and the error has no old value. When id was previously bound to old,
the map ends with no entry for id, the error bundles the backend error, the
failed new spec and some old, and the backend state equals its state right
after unloading old: it contains none of old's sub template ids and no id
that was not loaded before the call - but a sub template id of the NEW spec
may remain present when it was already loaded before the call by a different
spec (that id is precisely a collision that makes the load fail). -/
theorem claim_C2_insert_error_amended (ar : TemplateSource → Option TeraError)
    (rte : RTE) (id : String) (spec : TemplateSpec) (out : RTE)
    (err : InsertionError TeraError)
    (hndEng : rte.engine.Nodup)
    (hndKeys : (rte.id2spec.map Prod.fst).Nodup)
    (h : insert_spec ar rte id spec = (out, .error err)) :
    lookup_spec out id = none
    ∧ err.failed_new_value = spec
    ∧ (List.lookup id rte.id2spec = none →
        out.id2spec = rte.id2spec ∧ out.engine = rte.engine
        ∧ err.old_value = none)
    ∧ (∀ old, List.lookup id rte.id2spec = some old →
        out.id2spec = removeEntry rte.id2spec id
        ∧ err.old_value = some old
        ∧ out.engine = unload_templates old rte.engine
        ∧ (∀ i2 ∈ old.subIds, i2 ∉ out.engine)
        ∧ (∀ i2 ∈ out.engine, i2 ∈ rte.engine)) := by
  cases hl : List.lookup id rte.id2spec with
  | none =>
    simp only [insert_spec, hl] at h
    rcases hload : teraLoadTemplates ar spec rte.engine with ⟨e2, res⟩
    rw [hload] at h
    cases res with
    | ok v => simp at h
    | error e =>
      have h2 : ((⟨rte.fix_newlines, rte.id2spec, e2, rte.global_embeddings⟩ : RTE),
          Except.error (⟨e, spec, none⟩ : InsertionError TeraError))
          = (out, Except.error err) := h
      injection h2 with h3 h4
      injection h4 with h5
      subst h3 h5
      have hengine : e2 = rte.engine := by
        have hst := loadLoop_error_state (fun i => TeraError.TemplateIdCollision i)
          ar spec.templates.val [] rte.engine List.nodup_nil
          (fun x hx => absurd hx (List.not_mem_nil x)) e
          (show (teraLoadTemplates ar spec rte.engine).2 = .error e by rw [hload])
        have hst2 : (teraLoadTemplates ar spec rte.engine).1 = rte.engine := hst
        rw [hload] at hst2
        exact hst2
      refine ⟨hl, rfl, fun _ => ⟨rfl, hengine, rfl⟩, ?_⟩
      intro old hold
      exact Option.noConfusion hold
  | some old =>
    simp only [insert_spec, hl] at h
    rcases hload : teraLoadTemplates ar spec (unload_templates old rte.engine)
      with ⟨e2, res⟩
    rw [hload] at h
    cases res with
    | ok v => simp at h
    | error e =>
      have h2 : ((⟨rte.fix_newlines,
          removeEntry (replaceEntry rte.id2spec id spec) id, e2,
          rte.global_embeddings⟩ : RTE),
          Except.error (⟨e, spec, some old⟩ : InsertionError TeraError))
          = (out, Except.error err) := h
      injection h2 with h3 h4
      injection h4 with h5
      subst h3 h5
      have hengine : e2 = unload_templates old rte.engine := by
        have hst := loadLoop_error_state (fun i => TeraError.TemplateIdCollision i)
          ar spec.templates.val [] (unload_templates old rte.engine)
          List.nodup_nil (fun x hx => absurd hx (List.not_mem_nil x)) e
          (show (teraLoadTemplates ar spec (unload_templates old rte.engine)).2
            = .error e by rw [hload])
        have hst2 : (teraLoadTemplates ar spec (unload_templates old rte.engine)).1
            = unload_templates old rte.engine := hst
        rw [hload] at hst2
        exact hst2
      have hmap : removeEntry (replaceEntry rte.id2spec id spec) id
          = removeEntry rte.id2spec id := removeEntry_replaceEntry _ _ _
      refine ⟨?_, rfl, ?_, ?_⟩
      · show List.lookup id (removeEntry (replaceEntry rte.id2spec id spec) id) = none
        rw [hmap]
        exact lookup_removeEntry_self rte.id2spec id hndKeys
      · intro hnone
        exact Option.noConfusion hnone
      · intro old2 hold2
        rcases Option.some.inj hold2 with rfl
        refine ⟨hmap, rfl, hengine, ?_, ?_⟩
        · intro i2 hi2
          show i2 ∉ e2
          rw [hengine, unload_templates_eq_foldl]
          exact foldl_erase_not_mem old.subIds rte.engine hndEng i2 hi2
        · intro i2 hi2
          have hi3 : i2 ∈ e2 := hi2
          rw [hengine, unload_templates_eq_foldl] at hi3
          exact mem_foldl_erase i2 old.subIds rte.engine hi3

theorem claim_C2_insert_error_amended_witness :
    lookup_spec outC2 "a" = none
    ∧ outC2.engine = unload_templates (specOf "X") rteC2.engine := by
  have h := claim_C2_insert_error_amended arNone rteC2 "a" (specOf2 "X2" "Y")
    outC2 errC2 (by decide) (by decide) rfl
  exact ⟨h.1, (h.2.2.2 (specOf "X") rfl).2.2.1⟩

/-- C2, as stated, is false: from the empty registry, load spec Y under id
"b", then spec X under id "a" (both succeed), then replace "a" by a spec with
sub ids X2 and Y. The replacement fails with a collision on Y, the binding
for "a" is gone, yet the backend still contains Y, which IS one of the failed
new spec's sub template ids (it stays because spec "b" loaded it). -/
theorem claim_C2_counterexample :
    insert_spec arNone ⟨false, [], [], []⟩ "b" (specOf "Y")
      = (⟨false, [("b", specOf "Y")], ["Y"], []⟩, .ok none)
    ∧ insert_spec arNone ⟨false, [("b", specOf "Y")], ["Y"], []⟩ "a" (specOf "X")
      = (rteC2, .ok none)
    ∧ insert_spec arNone rteC2 "a" (specOf2 "X2" "Y") = (outC2, .error errC2)
    ∧ "Y" ∈ (specOf2 "X2" "Y").subIds
    ∧ "Y" ∈ outC2.engine := by
  refine ⟨rfl, rfl, rfl, ?_, ?_⟩ <;> decide

/-- C3 (amended): for every candidate subdirectory, the compiler recognizes
the template source file as a directory entry whose name starts with "mail."
(the type descriptor's suffix list plays no role in the search), scanning the
directory in iteration order: when no such entry exists it fails with
TemplateFileMissing, when exactly one exists that entry becomes the template
file, and when more than one exists it fails with MultipleTemplateFiles -
contrary to the claim, a second recognized template file IS checked and is an
error. Stated for a directory listing split around the recognized entries,
with every other entry a well-formed embedding with distinct names. -/
theorem claim_C3_template_discovery_amended (settings : LoadSpecSettings)
    (dir : String) (pre mid post : List FileEntry) (f g : FileEntry)
    (h1 : ∀ x ∈ pre ++ mid ++ post, is_template_file x = false)
    (h2 : ∀ x ∈ pre ++ mid ++ post,
      exceptIsOk (embedding_from_path settings dir x) = true)
    (h3 : ((pre ++ mid ++ post).map embName).Nodup)
    (hf : is_template_file f = true)
    (hg : is_template_file g = true) :
    find_files settings dir (pre ++ mid ++ post)
      = .error (.TemplateFileMissing dir)
    ∧ (∃ o, find_files settings dir (pre ++ f :: (mid ++ post))
        = .ok (dir ++ "/" ++ f.fileName, o))
    ∧ find_files settings dir (pre ++ f :: (mid ++ g :: post))
        = .error (.MultipleTemplateFiles dir) := by
  have hall : (pre.map embName ++ (mid.map embName ++ post.map embName)).Nodup := by
    simpa [List.map_append, List.append_assoc] using h3
  have hpreN : (pre.map embName).Nodup := (List.nodup_append.mp hall).1
  have hpre1 : ∀ x ∈ pre, is_template_file x = false :=
    fun x hx => h1 x (by simp only [List.mem_append] at *; tauto)
  have hpre2 : ∀ x ∈ pre, exceptIsOk (embedding_from_path settings dir x) = true :=
    fun x hx => h2 x (by simp only [List.mem_append] at *; tauto)
  obtain ⟨o1, ho1, hk1⟩ := findFilesLoop_embeddings_only settings dir pre none []
    hpre1 hpre2 (by simpa using hpreN)
  have hmid1 : ∀ x ∈ mid, is_template_file x = false :=
    fun x hx => h1 x (by simp only [List.mem_append] at *; tauto)
  have hmid2 : ∀ x ∈ mid, exceptIsOk (embedding_from_path settings dir x) = true :=
    fun x hx => h2 x (by simp only [List.mem_append] at *; tauto)
  have hmp1 : ∀ x ∈ mid ++ post, is_template_file x = false :=
    fun x hx => h1 x (by simp only [List.mem_append] at *; tauto)
  have hmp2 : ∀ x ∈ mid ++ post,
      exceptIsOk (embedding_from_path settings dir x) = true :=
    fun x hx => h2 x (by simp only [List.mem_append] at *; tauto)
  refine ⟨?_, ?_, ?_⟩
  · obtain ⟨oA, hoA, _⟩ := findFilesLoop_embeddings_only settings dir
      (pre ++ mid ++ post) none [] h1 h2 (by simpa using h3)
    simp only [find_files, hoA]
  · have hB := findFilesLoop_append settings dir pre (f :: (mid ++ post))
      none [] none o1 ho1
    have hC : findFilesLoop settings dir (f :: (mid ++ post)) none o1
        = findFilesLoop settings dir (mid ++ post)
            (some (dir ++ "/" ++ f.fileName)) o1 := by
      simp [findFilesLoop, hf]
    have hnodup2 : (o1.map Prod.fst ++ (mid ++ post).map embName).Nodup := by
      rw [hk1]
      simpa [List.map_append, List.append_assoc] using h3
    obtain ⟨o2, ho2, _⟩ := findFilesLoop_embeddings_only settings dir
      (mid ++ post) (some (dir ++ "/" ++ f.fileName)) o1 hmp1 hmp2 hnodup2
    refine ⟨o2, ?_⟩
    simp only [find_files, hB, hC, ho2]
  · have hpm : ((pre ++ mid).map embName).Nodup := by
      have : ((pre ++ mid).map embName ++ post.map embName).Nodup := by
        simpa [List.map_append, List.append_assoc] using h3
      exact (List.nodup_append.mp this).1
    have hB := findFilesLoop_append settings dir pre (f :: (mid ++ g :: post))
      none [] none o1 ho1
    have hC : findFilesLoop settings dir (f :: (mid ++ g :: post)) none o1
        = findFilesLoop settings dir (mid ++ g :: post)
            (some (dir ++ "/" ++ f.fileName)) o1 := by
      simp [findFilesLoop, hf]
    have hnodupM : (o1.map Prod.fst ++ mid.map embName).Nodup := by
      rw [hk1]
      simpa [List.map_append] using hpm
    obtain ⟨o2m, ho2m, _⟩ := findFilesLoop_embeddings_only settings dir
      mid (some (dir ++ "/" ++ f.fileName)) o1 hmid1 hmid2 hnodupM
    have hD := findFilesLoop_append settings dir mid (g :: post)
      (some (dir ++ "/" ++ f.fileName)) o1
      (some (dir ++ "/" ++ f.fileName)) o2m ho2m
    have hE : findFilesLoop settings dir (g :: post)
        (some (dir ++ "/" ++ f.fileName)) o2m
        = .error (.MultipleTemplateFiles dir) := by
      simp [findFilesLoop, hg]
    simp only [find_files, hB, hC, hD, hE]

theorem claim_C3_template_discovery_amended_witness :
    find_files s0 "d" [⟨"a.png", true⟩] = .error (.TemplateFileMissing "d")
    ∧ (∃ o, find_files s0 "d" [⟨"a.png", true⟩, ⟨"mail.txt", true⟩]
        = .ok ("d" ++ "/" ++ "mail.txt", o))
    ∧ find_files s0 "d" [⟨"a.png", true⟩, ⟨"mail.txt", true⟩, ⟨"mail.html", true⟩]
        = .error (.MultipleTemplateFiles "d") :=
  claim_C3_template_discovery_amended s0 "d" [⟨"a.png", true⟩] [] []
    ⟨"mail.txt", true⟩ ⟨"mail.html", true⟩
    (by decide) (by decide) (by decide) (by decide) (by decide)

/-- C3, as stated, is false at this input: a candidate directory holding two
recognized template files (both names start with "mail.") makes the compiler
fail with MultipleTemplateFiles instead of silently taking the first match by
suffix order. -/
theorem claim_C3_counterexample :
    is_template_file ⟨"mail.txt", true⟩ = true
    ∧ is_template_file ⟨"mail.html", true⟩ = true
    ∧ find_files s0 "d" [⟨"mail.txt", true⟩, ⟨"mail.html", true⟩]
        = .error (.MultipleTemplateFiles "d") :=
  ⟨rfl, rfl, rfl⟩

/-- C4 (amended): two non-directory entries directly under the base directory
that derive the same embedding name do NOT make the compile fail: the shared
embedding pass is a plain map insert, so the later entry's resource silently
overwrites the earlier one and a Specification with the overwritten shared
embedding is returned. Only inside a single alternate-body subdirectory does
a duplicate derived name raise DuplicateEmbeddingName. -/
theorem claim_C4_shared_duplicate_amended (settings : LoadSpecSettings)
    (base : String) (e1 e2 : FileEntry) (n : String) (r1 r2 : Resource)
    (subName : String) (subContents : List FileEntry) (prio : Nat)
    (ty : TypeDescr) (sub : SubTemplateSpec)
    (he1 : embedding_from_path settings base e1 = .ok (n, r1))
    (he2 : embedding_from_path settings base e2 = .ok (n, r2))
    (hty : settings.get_type_with_priority subName = some (prio, ty))
    (hsub : sub_template_from_dir settings (base ++ "/" ++ subName) ty
      subContents = .ok sub) :
    from_dir settings base [.nondir e1, .nondir e2, .dir subName subContents]
      = .ok ⟨some base, ⟨[sub], List.cons_ne_nil sub []⟩, [(n, r2)], []⟩
    ∧ (∀ (dir2 : String) (f1 f2 : FileEntry) (m : String) (q1 q2 : Resource),
        is_template_file f1 = false →
        is_template_file f2 = false →
        embedding_from_path settings dir2 f1 = .ok (m, q1) →
        embedding_from_path settings dir2 f2 = .ok (m, q2) →
        find_files settings dir2 [f1, f2]
          = .error (.DuplicateEmbeddingName m)) := by
  constructor
  · simp only [from_dir, scanEntries, he1, he2, hty, mapInsert, beq_self_eq_true,
      if_pos, sortByKey, insertByKey, tryMap, hsub]
  · intro dir2 f1 f2 m q1 q2 hf1 hf2 hm1 hm2
    simp only [find_files, findFilesLoop, hf1, hf2, Bool.false_eq_true, if_false,
      hm1, hm2, List.lookup, beq_self_eq_true, Option.isSome_none,
      Option.isSome_some, if_true]

theorem claim_C4_shared_duplicate_amended_witness :
    from_dir s4 "b" entries4
      = .ok ⟨some "b", ⟨[⟨"text/plain", .Path "b/text/mail.txt", []⟩],
          List.cons_ne_nil _ []⟩,
          [("logo", ⟨"path:b/logo.jpg", "application/x-any"⟩)], []⟩
    ∧ find_files s4 "d" [⟨"logo.png", true⟩, ⟨"logo.jpg", true⟩]
        = .error (.DuplicateEmbeddingName "logo") := by
  have h := claim_C4_shared_duplicate_amended s4 "b"
    ⟨"logo.png", true⟩ ⟨"logo.jpg", true⟩ "logo"
    ⟨"path:b/logo.png", "application/x-any"⟩
    ⟨"path:b/logo.jpg", "application/x-any"⟩
    "text" [⟨"mail.txt", true⟩] 0 ty4
    ⟨"text/plain", .Path "b/text/mail.txt", []⟩
    rfl rfl rfl rfl
  exact ⟨h.1, h.2 "d" ⟨"logo.png", true⟩ ⟨"logo.jpg", true⟩ "logo"
    ⟨"path:d/logo.png", "application/x-any"⟩
    ⟨"path:d/logo.jpg", "application/x-any"⟩ rfl rfl rfl rfl⟩

/-- C4, as stated, is false at this input: the base directory holds logo.png
and logo.jpg, both deriving the embedding name "logo", yet from_dir succeeds
and returns a Specification whose shared map silently kept only the later
file's resource. -/
theorem claim_C4_counterexample :
    embName ⟨"logo.png", true⟩ = "logo"
    ∧ embName ⟨"logo.jpg", true⟩ = "logo"
    ∧ from_dir s4 "b" entries4 = .ok spec4
    ∧ spec4.embeddings = [("logo", ⟨"path:b/logo.jpg", "application/x-any"⟩)] :=
  ⟨rfl, rfl, rfl, rfl⟩

/-- C7: the candidate subdirectories are sorted by ascending priority with a
stable sort (ascending Pairwise order, and entries of equal priority keep
their directory-iteration order, expressed by filter invariance), that sorted
order is the order of the SubSpecifications in the resulting Specification,
and use_template renders the alternate bodies in exactly that order: the i-th
alternative body is the render of the i-th sub specification. -/
theorem claim_C7_priority_order {ε : Type} (settings : LoadSpecSettings)
    (base : String) (entries : List FsEntry) (spec : TemplateSpec)
    (cands : List Candidate) (globs : List (String × Resource))
    (renderFn : SubTemplateSpec → List CidMap → Except ε String)
    (unknownIdErr : String → ε) (ctx : RenderCtx) (fixFn : String → String)
    (rte : RTE) (template_id : String) (parts : MailParts)
    (hscan : scanEntries settings base entries ([], []) = .ok (cands, globs))
    (hok : from_dir settings base entries = .ok spec)
    (hlook : lookup_spec rte template_id = some spec)
    (hrender : use_template renderFn unknownIdErr ctx fixFn rte template_id
      = .ok parts) :
    (sortByKey cands).Pairwise (fun a b => a.1 ≤ b.1)
    ∧ (∀ k, (sortByKey cands).filter (fun p => p.1 == k)
        = cands.filter (fun p => p.1 == k))
    ∧ tryMap (fun c => sub_template_from_dir settings c.2.1 c.2.2.1 c.2.2.2)
        (sortByKey cands) = .ok spec.templates.val
    ∧ parts.alternative_bodies.length = spec.templates.val.length
    ∧ (∀ i (h1 : i < spec.templates.val.length)
        (h2 : i < parts.alternative_bodies.length),
        renderBody renderFn ctx rte.fix_newlines fixFn
          (spec.embeddings.map (fun kv => create_embedding ctx kv.1 kv.2))
          rte.global_embeddings (spec.templates.val.get ⟨i, h1⟩)
          = .ok (parts.alternative_bodies.get ⟨i, h2⟩)) := by
  have h3 : tryMap (fun c => sub_template_from_dir settings c.2.1 c.2.2.1 c.2.2.2)
      (sortByKey cands) = .ok spec.templates.val := by
    simp only [from_dir, hscan] at hok
    cases htm : tryMap (fun c => sub_template_from_dir settings c.2.1 c.2.2.1
      c.2.2.2) (sortByKey cands) with
    | error e => simp [htm] at hok
    | ok subs =>
      simp only [htm] at hok
      cases subs with
      | nil => simp at hok
      | cons s ss =>
        injection hok with h4
        rw [← h4]
  have hbodies : tryMap (renderBody renderFn ctx rte.fix_newlines fixFn
      (spec.embeddings.map (fun kv => create_embedding ctx kv.1 kv.2))
      rte.global_embeddings) spec.templates.val
      = .ok parts.alternative_bodies := by
    simp only [use_template, hlook] at hrender
    cases htb : tryMap (renderBody renderFn ctx rte.fix_newlines fixFn
        (spec.embeddings.map (fun kv => create_embedding ctx kv.1 kv.2))
        rte.global_embeddings) spec.templates.val with
    | error e => simp [htb] at hrender
    | ok bodies =>
      simp only [htb] at hrender
      injection hrender with h5
      rw [← h5]
  exact ⟨sortByKey_sorted cands, fun k => sortByKey_filter_stable k cands, h3,
    tryMap_length _ _ _ hbodies, fun i h1 h2 => tryMap_get _ _ _ hbodies i h1 h2⟩

theorem claim_C7_priority_order_witness :
    tryMap (fun c => sub_template_from_dir s7 c.2.1 c.2.2.1 c.2.2.2)
      (sortByKey cands7) = .ok [subText7, subHtml7]
    ∧ (sortByKey cands7).Pairwise (fun a b => a.1 ≤ b.1)
    ∧ parts7.alternative_bodies.length = 2 := by
  have h := claim_C7_priority_order s7 "B" entries7 spec7 cands7 []
    renderFn7 (fun i => TeraError.UnknowTemplateId i) ctx0 (fun str => str)
    rte7 "t7" parts7 rfl rfl rfl rfl
  exact ⟨h.2.2.1, h.1, h.2.2.2.1⟩

/-- C8: every constructed TemplateSpec has a nonempty SubSpecification
sequence (a property of the type every operation preserves), and compiling a
base directory whose entries yield zero candidate subdirectories fails with
NoSubTemplatesFound, returning no Specification. -/
theorem claim_C8_nonempty_subspecs :
    (∀ ts : TemplateSpec, ts.templates.val ≠ [])
    ∧ (∀ (settings : LoadSpecSettings) (base : String) (entries : List FsEntry),
        entries.all (isOkFileEntry settings base) = true →
        from_dir settings base entries = .error (.NoSubTemplatesFound base)) := by
  constructor
  · exact fun ts => ts.templates.property
  · intro settings base entries hall
    obtain ⟨g2, hscan⟩ := scanEntries_files_only settings base entries [] [] hall
    simp [from_dir, hscan, sortByKey, tryMap]

theorem claim_C8_nonempty_subspecs_witness :
    from_dir s0 "b" [.nondir ⟨"x.png", true⟩]
      = .error (.NoSubTemplatesFound "b") :=
  claim_C8_nonempty_subspecs.2 s0 "b" [.nondir ⟨"x.png", true⟩] (by decide)

/-- C9: a regular file whose name begins with a dot derives the empty string
as its embedding name (the segment before the first dot) and
embedding_from_path accepts it without error; more generally acceptance never
depends on the derived name, so empty-derived names are never rejected. -/
theorem claim_C9_empty_names_accepted :
    (∀ (settings : LoadSpecSettings) (parent : String) (f : FileEntry)
      (rest : List Char) (mt : String),
      f.isFile = true →
      f.fileName.data = '.' :: rest →
      settings.determine_media_type (parent ++ "/" ++ f.fileName) = some mt →
      embedding_from_path settings parent f
        = .ok ("", ⟨iri_from_path (parent ++ "/" ++ f.fileName), mt⟩))
    ∧ (∀ (settings : LoadSpecSettings) (parent : String) (f : FileEntry)
      (mt : String),
      f.isFile = true →
      settings.determine_media_type (parent ++ "/" ++ f.fileName) = some mt →
      exceptIsOk (embedding_from_path settings parent f) = true) := by
  constructor
  · intro settings parent f rest mt hfile hdata hmt
    have hname : leadingName f.fileName = "" := by
      unfold leadingName
      rw [hdata]
      rfl
    unfold embedding_from_path
    simp [hfile, hmt, hname]
  · intro settings parent f mt hfile hmt
    unfold embedding_from_path
    simp [hfile, hmt, exceptIsOk]

theorem claim_C9_empty_names_accepted_witness :
    embedding_from_path s0 "d" ⟨".gitignore", true⟩
      = .ok ("", ⟨"path:d/.gitignore", "application/octet-stream"⟩) :=
  claim_C9_empty_names_accepted.1 s0 "d" ⟨".gitignore", true⟩
    "gitignore".data "application/octet-stream" rfl rfl rfl

/-- C6: evaluation of the Serialize impl at the failing input. Two layers
binding the same name "a" to different content ids 1 and 2: the full
enumeration emits the name twice, with the lower-precedence pair included,
although get resolves "a" to 1 only. The claim (and the type's own doc
comment) require each name to be emitted exactly once. -/
theorem claim_C6_pair_filter_eval :
    serializedPairs [[("a", ⟨1⟩)], [("a", ⟨2⟩)]] = [("a", 1), ("a", 2)]
    ∧ ((serializedPairs [[("a", ⟨1⟩)], [("a", ⟨2⟩)]]).map Prod.fst).count "a" = 2
    ∧ acidsGet [[("a", ⟨1⟩)], [("a", ⟨2⟩)]] "a" = some 1 := by
  exact ⟨rfl, rfl, rfl⟩

end MailRte
